import Mathlib

/-!
A shallow embedding of the sound-warehouse-manager server handlers.

Tables are Lean lists, timestamps are naturals (`new Date()` becomes an
explicit `now` argument), SQL `serial` primary keys become explicit
`next…Id` counters, and a thrown `Error` becomes `Except.error` carrying
the message string built exactly as the handler builds it.  Database-level
constraints (unique serial numbers, foreign keys) live in the Drizzle
schema, not in the handler code, and are not part of this embedding: the
theorems below are about the handlers' own logic over table states.
-/

namespace Warehouse

inductive EquipmentStatus where
  | available
  | checked_out
  | booked
  | maintenance
deriving DecidableEq

inductive TransactionType where
  | check_out
  | check_in
  | booking
deriving DecidableEq

/-- Rendering of a status value into the error-message strings, as the
handlers' template literals do. -/
def statusText : EquipmentStatus → String
  | .available => "available"
  | .checked_out => "checked_out"
  | .booked => "booked"
  | .maintenance => "maintenance"

structure Admin where
  id : Nat
  username : String
  email : String
  password_hash : String
  created_at : Nat
  updated_at : Nat
deriving DecidableEq

structure Equipment where
  id : Nat
  name : String
  serial_number : String
  description : Option String
  category : String
  brand : Option String
  model : Option String
  status : EquipmentStatus
  created_at : Nat
  updated_at : Nat
deriving DecidableEq

structure EquipmentTransaction where
  id : Nat
  equipment_id : Nat
  admin_id : Nat
  transaction_type : TransactionType
  user_name : String
  user_contact : Option String
  notes : Option String
  transaction_date : Nat
  expected_return_date : Option Nat
  actual_return_date : Option Nat
  created_at : Nat
deriving DecidableEq

/-- The durable store: the three tables plus the serial-key counters. -/
structure DB where
  admins : List Admin
  equipment : List Equipment
  transactions : List EquipmentTransaction
  nextEquipmentId : Nat
  nextTransactionId : Nat
deriving DecidableEq

/-- JavaScript `x || null` on an optional string: `undefined`, `null` and
the empty string all collapse to `null`. -/
def presentOrNull : Option String → Option String
  | none => none
  | some s => if s = "" then none else some s

/-- Mirrors `db.select().from(adminsTable).where(eq(adminsTable.id, id))`
followed by taking row `[0]`. -/
def selectAdminById (db : DB) (adminId : Nat) : Option Admin :=
  db.admins.find? (fun a => a.id == adminId)

/-- Mirrors `db.select().from(equipmentTable).where(eq(equipmentTable.id, id))`
followed by taking row `[0]`. -/
def selectEquipmentById (db : DB) (equipmentId : Nat) : Option Equipment :=
  db.equipment.find? (fun e => e.id == equipmentId)

/-- Mirrors the `where(and(eq(equipment_id, id), isNull(actual_return_date)))`
query used by check-in reconciliation and by the deletion guard. -/
def selectUnreturnedFor (db : DB) (equipmentId : Nat) : List EquipmentTransaction :=
  db.transactions.filter (fun t => t.equipment_id == equipmentId && t.actual_return_date.isNone)

/-- Mirrors `orderBy(desc(created_at)).limit(1)`: a row of maximal
`created_at`, or `none` on the empty result set. -/
def latestCreated : List EquipmentTransaction → Option EquipmentTransaction
  | [] => none
  | t :: ts =>
    match latestCreated ts with
    | none => some t
    | some u => if u.created_at > t.created_at then some u else some t

section Inputs

structure CreateEquipmentInput where
  name : String
  serial_number : String
  description : Option String
  category : String
  brand : Option String
  model : Option String
  status : EquipmentStatus
deriving DecidableEq

structure CheckOutEquipmentInput where
  equipment_id : Nat
  admin_id : Nat
  user_name : String
  user_contact : Option String
  expected_return_date : Option Nat
  notes : Option String
deriving DecidableEq

/-- Booking input: `expected_return_date` is `z.coerce.date()` with no
`.nullable().optional()`, so the field is mandatory — modelled as a plain
`Nat`, not an `Option Nat`. -/
structure BookEquipmentInput where
  equipment_id : Nat
  admin_id : Nat
  user_name : String
  user_contact : Option String
  expected_return_date : Nat
  notes : Option String
deriving DecidableEq

structure CheckInEquipmentInput where
  equipment_id : Nat
  admin_id : Nat
  notes : Option String
deriving DecidableEq

/-- Update input: an outer `Option` is zod `.optional()` (field absent from
the update), an inner `Option` is a nullable column value. -/
structure UpdateEquipmentInput where
  id : Nat
  name : Option String
  serial_number : Option String
  description : Option (Option String)
  category : Option String
  brand : Option (Option String)
  model : Option (Option String)
  status : Option EquipmentStatus
deriving DecidableEq

end Inputs

/-- Handler `createEquipment` (src/unnamed/part_007): insert with the
serial-key id, `defaultNow()` timestamps and `input.x || null` coalescing. -/
def createEquipment (db : DB) (now : Nat) (input : CreateEquipmentInput) :
    Equipment × DB :=
  let equipment : Equipment :=
    { id := db.nextEquipmentId
      name := input.name
      serial_number := input.serial_number
      description := presentOrNull input.description
      category := input.category
      brand := presentOrNull input.brand
      model := presentOrNull input.model
      status := input.status
      created_at := now
      updated_at := now }
  (equipment,
    { db with
        equipment := db.equipment ++ [equipment]
        nextEquipmentId := db.nextEquipmentId + 1 })

/-- Handler `checkOutEquipment` (src/unnamed/part_009): admin check,
equipment check, status gate, status update, transaction insert. -/
def checkOutEquipment (db : DB) (now : Nat) (input : CheckOutEquipmentInput) :
    Except String (EquipmentTransaction × DB) :=
  match selectAdminById db input.admin_id with
  | none => .error ("Admin with id " ++ toString input.admin_id ++ " not found")
  | some _ =>
    match selectEquipmentById db input.equipment_id with
    | none => .error ("Equipment with id " ++ toString input.equipment_id ++ " not found")
    | some equipment =>
      if equipment.status ≠ .available then
        .error ("Equipment is not available (current status: " ++ statusText equipment.status ++ ")")
      else
        let updatedEquipment := db.equipment.map (fun e =>
          if e.id == input.equipment_id then
            { e with status := .checked_out, updated_at := now }
          else e)
        let txn : EquipmentTransaction :=
          { id := db.nextTransactionId
            equipment_id := input.equipment_id
            admin_id := input.admin_id
            transaction_type := .check_out
            user_name := input.user_name
            user_contact := presentOrNull input.user_contact
            notes := presentOrNull input.notes
            transaction_date := now
            expected_return_date := input.expected_return_date
            actual_return_date := none
            created_at := now }
        .ok (txn,
          { db with
              equipment := updatedEquipment
              transactions := db.transactions ++ [txn]
              nextTransactionId := db.nextTransactionId + 1 })

/-- Handler `bookEquipment` (src/unnamed/part_010): same shape as check-out
with the `booked` status, the `booking` type and a mandatory return date. -/
def bookEquipment (db : DB) (now : Nat) (input : BookEquipmentInput) :
    Except String (EquipmentTransaction × DB) :=
  match selectAdminById db input.admin_id with
  | none => .error ("Admin with id " ++ toString input.admin_id ++ " not found")
  | some _ =>
    match selectEquipmentById db input.equipment_id with
    | none => .error ("Equipment with id " ++ toString input.equipment_id ++ " not found")
    | some equipment =>
      if equipment.status ≠ .available then
        .error ("Equipment is not available for booking. Current status: " ++ statusText equipment.status)
      else
        let updatedEquipment := db.equipment.map (fun e =>
          if e.id == input.equipment_id then
            { e with status := .booked, updated_at := now }
          else e)
        let txn : EquipmentTransaction :=
          { id := db.nextTransactionId
            equipment_id := input.equipment_id
            admin_id := input.admin_id
            transaction_type := .booking
            user_name := input.user_name
            user_contact := presentOrNull input.user_contact
            notes := presentOrNull input.notes
            transaction_date := now
            expected_return_date := some input.expected_return_date
            actual_return_date := none
            created_at := now }
        .ok (txn,
          { db with
              equipment := updatedEquipment
              transactions := db.transactions ++ [txn]
              nextTransactionId := db.nextTransactionId + 1 })

/-- Handler `checkInEquipment` (src/server/src/handlers/check_in_equipment.ts):
status gate on `checked_out`/`booked`, status reset, reconciliation of the
most recently created unreturned transaction, then the `check_in` insert
with the `"System"` sentinel user. -/
def checkInEquipment (db : DB) (now : Nat) (input : CheckInEquipmentInput) :
    Except String (EquipmentTransaction × DB) :=
  match selectEquipmentById db input.equipment_id with
  | none => .error ("Equipment with ID " ++ toString input.equipment_id ++ " not found")
  | some currentEquipment =>
    if currentEquipment.status ≠ .checked_out ∧ currentEquipment.status ≠ .booked then
      .error ("Equipment is currently " ++ statusText currentEquipment.status ++ ", cannot check in")
    else
      let updatedEquipment := db.equipment.map (fun e =>
        if e.id == input.equipment_id then
          { e with status := .available, updated_at := now }
        else e)
      let lastTransaction := latestCreated (selectUnreturnedFor db input.equipment_id)
      let reconciled :=
        match lastTransaction with
        | none => db.transactions
        | some lt => db.transactions.map (fun t =>
            if t.id == lt.id then { t with actual_return_date := some now } else t)
      let checkInTxn : EquipmentTransaction :=
        { id := db.nextTransactionId
          equipment_id := input.equipment_id
          admin_id := input.admin_id
          transaction_type := .check_in
          user_name := "System"
          user_contact := none
          notes := presentOrNull input.notes
          transaction_date := now
          expected_return_date := none
          actual_return_date := some now
          created_at := now }
      .ok (checkInTxn,
        { db with
            equipment := updatedEquipment
            transactions := reconciled ++ [checkInTxn]
            nextTransactionId := db.nextTransactionId + 1 })

/-- Handler `deleteEquipment` (src/server/src/handlers/delete_equipment.ts):
`false` on a missing row, a thrown conflict when any unreturned transaction
references the equipment, otherwise delete transactions then the row. -/
def deleteEquipment (db : DB) (id : Nat) : Except String (Bool × DB) :=
  match selectEquipmentById db id with
  | none => .ok (false, db)
  | some _ =>
    if (selectUnreturnedFor db id).length > 0 then
      .error "Cannot delete equipment with active transactions. Please check in equipment first."
    else
      .ok (true,
        { db with
            transactions := db.transactions.filter (fun t => !(t.equipment_id == id))
            equipment := db.equipment.filter (fun e => !(e.id == id)) })

/-- Handler `updateEquipmentStatus` (src/server/src/handlers/update_equipment_status.ts):
an unconditional `update … set status, updated_at … returning`, with `null`
when no row matched. -/
def updateEquipmentStatus (db : DB) (now : Nat) (equipmentId : Nat)
    (status : EquipmentStatus) : Option Equipment × DB :=
  let updatedTable := db.equipment.map (fun e =>
    if e.id == equipmentId then { e with status := status, updated_at := now } else e)
  match updatedTable.filter (fun e => e.id == equipmentId) with
  | [] => (none, { db with equipment := updatedTable })
  | r :: _ => (some r, { db with equipment := updatedTable })

/-- The `updateValues` object built by `updateEquipment`: each provided
field overwrites, `updated_at` always refreshed. -/
def applyUpdate (input : UpdateEquipmentInput) (now : Nat) (e : Equipment) : Equipment :=
  { e with
      name := input.name.getD e.name
      serial_number := input.serial_number.getD e.serial_number
      description := input.description.getD e.description
      category := input.category.getD e.category
      brand := input.brand.getD e.brand
      model := input.model.getD e.model
      status := input.status.getD e.status
      updated_at := now }

/-- True when the update carries at least one column besides `updated_at`
(the handler's `Object.keys(updateValues).length === 1` test, negated). -/
def hasUpdateFields (input : UpdateEquipmentInput) : Bool :=
  input.name.isSome || input.serial_number.isSome || input.description.isSome ||
  input.category.isSome || input.brand.isSome || input.model.isSome || input.status.isSome

/-- Handler `updateEquipment` (src/server/src/handlers/update_equipment.ts):
existence check, field-by-field update object, the no-field early return
of the existing row, otherwise `update … returning`. -/
def updateEquipment (db : DB) (now : Nat) (input : UpdateEquipmentInput) :
    Option Equipment × DB :=
  match selectEquipmentById db input.id with
  | none => (none, db)
  | some existing =>
    if hasUpdateFields input then
      let updatedTable := db.equipment.map (fun e =>
        if e.id == input.id then applyUpdate input now e else e)
      match updatedTable.filter (fun e => e.id == input.id) with
      | [] => (none, { db with equipment := updatedTable })
      | r :: _ => (some r, { db with equipment := updatedTable })
    else
      (some existing, db)

structure EquipmentWithTransactions where
  equipment : Equipment
  transactions : List EquipmentTransaction
  current_user : Option String
deriving DecidableEq

/-- Insertion step for the `orderBy(desc(transaction_date))` result order. -/
def insertByDateDesc (t : EquipmentTransaction) :
    List EquipmentTransaction → List EquipmentTransaction
  | [] => [t]
  | u :: us =>
    if t.transaction_date ≤ u.transaction_date then u :: insertByDateDesc t us
    else t :: u :: us

/-- Rows sorted by `transaction_date` descending. -/
def sortByDateDesc (ts : List EquipmentTransaction) : List EquipmentTransaction :=
  ts.foldr insertByDateDesc []

/-- Handler `getEquipmentWithTransactions` (src/unnamed/part_013): the
equipment row, its transactions inner-joined with the admins table (the
join keeps a row exactly when its `admin_id` matches an admin; admin ids
are a primary key) in descending `transaction_date` order, and the
derived `current_user`. -/
def getEquipmentWithTransactions (db : DB) (equipmentId : Nat) :
    Option EquipmentWithTransactions :=
  match selectEquipmentById db equipmentId with
  | none => none
  | some equipment =>
    let joinedRows := db.transactions.filter (fun t =>
      t.equipment_id == equipmentId && db.admins.any (fun a => a.id == t.admin_id))
    let transactionResults := sortByDateDesc joinedRows
    let currentUser : Option String :=
      if transactionResults.length > 0 ∧ equipment.status = .checked_out then
        (transactionResults.find? (fun t =>
          t.transaction_type == TransactionType.check_out && t.actual_return_date.isNone)).map
          (fun t => t.user_name)
      else if transactionResults.length > 0 ∧ equipment.status = .booked then
        (transactionResults.find? (fun t =>
          t.transaction_type == TransactionType.booking && t.actual_return_date.isNone)).map
          (fun t => t.user_name)
      else none
    some { equipment := equipment, transactions := transactionResults, current_user := currentUser }

/-- Spec notion of an open ledger record: type `check_out` or `booking`
with `actual_return_date` still null. -/
def isOpenTxn (t : EquipmentTransaction) : Bool :=
  (t.transaction_type == TransactionType.check_out ||
   t.transaction_type == TransactionType.booking) && t.actual_return_date.isNone

/-- The open ledger records referencing one equipment item. -/
def openLedger (db : DB) (equipmentId : Nat) : List EquipmentTransaction :=
  db.transactions.filter (fun t => t.equipment_id == equipmentId && isOpenTxn t)

/-- How many open transactions reference the given equipment item. -/
def openCount (db : DB) (equipmentId : Nat) : Nat :=
  (openLedger db equipmentId).length

/-- One invocation of a public lifecycle operation, with the wall-clock
value its `new Date()` calls observe. -/
inductive Op where
  | create (now : Nat) (input : CreateEquipmentInput)
  | checkOut (now : Nat) (input : CheckOutEquipmentInput)
  | book (now : Nat) (input : BookEquipmentInput)
  | checkIn (now : Nat) (input : CheckInEquipmentInput)
  | delete (id : Nat)
  | update (now : Nat) (input : UpdateEquipmentInput)
  | setStatus (now : Nat) (id : Nat) (status : EquipmentStatus)
deriving DecidableEq

/-- The store state after one operation; a rejected operation leaves the
store untouched (every handler validates before its first write). -/
def execOp (db : DB) : Op → DB
  | .create now input => (createEquipment db now input).2
  | .checkOut now input =>
    match checkOutEquipment db now input with
    | .ok (_, db2) => db2
    | .error _ => db
  | .book now input =>
    match bookEquipment db now input with
    | .ok (_, db2) => db2
    | .error _ => db
  | .checkIn now input =>
    match checkInEquipment db now input with
    | .ok (_, db2) => db2
    | .error _ => db
  | .delete id =>
    match deleteEquipment db id with
    | .ok (_, db2) => db2
    | .error _ => db
  | .update now input => (updateEquipment db now input).2
  | .setStatus now id status => (updateEquipmentStatus db now id status).2

/-- The store after a whole call sequence. -/
def runOps (db : DB) (ops : List Op) : DB :=
  ops.foldl execOp db

/-- A fresh store: a pre-existing admins table, empty equipment and
transaction tables. -/
def initDB (admins : List Admin) : DB :=
  { admins := admins
    equipment := []
    transactions := []
    nextEquipmentId := 1
    nextTransactionId := 1 }

/-- Operations that do not bypass the lifecycle status gates: everything
except the maintenance override `updateEquipmentStatus` and a catalog
`updateEquipment` call that rewrites `status` directly. -/
def GoodOp : Op → Prop
  | .setStatus _ _ _ => False
  | .update _ input => input.status = none
  | _ => True

instance : DecidablePred GoodOp := by
  intro op
  cases op <;> simp only [GoodOp] <;> infer_instance

/-- The inductive invariant tying the ledger to the status field:
every item has at most one open transaction; an `available` or
`maintenance` item has none; transactions only reference allocated
equipment ids; equipment ids are below the allocation counter; and
`check_in` records are always already returned. -/
def StrongInv (db : DB) : Prop :=
  (∀ eid, openCount db eid ≤ 1) ∧
  (∀ e ∈ db.equipment,
    (e.status = .available ∨ e.status = .maintenance) → openCount db e.id = 0) ∧
  (∀ t ∈ db.transactions, t.equipment_id < db.nextEquipmentId) ∧
  (∀ e ∈ db.equipment, e.id < db.nextEquipmentId) ∧
  (∀ t ∈ db.transactions, t.transaction_type = .check_in → t.actual_return_date ≠ none)

lemma length_filter_map_le {α : Type} (f : α → α) (p : α → Bool) (l : List α)
    (h : ∀ t ∈ l, p (f t) = true → f t = t) :
    ((l.map f).filter p).length ≤ (l.filter p).length := by
  induction l with
  | nil => simp
  | cons t ts ih =>
    have ih2 := ih (fun u hu => h u (List.mem_cons_of_mem _ hu))
    by_cases hp : p (f t) = true
    · have hft : f t = t := h t (List.mem_cons_self _ _) hp
      have hpt : p t = true := by rw [← hft]; exact hp
      simp only [List.map_cons, List.filter_cons, hp, hpt, if_pos, List.length_cons]
      omega
    · by_cases hpt : p t = true
      · simp only [List.map_cons, List.filter_cons, hpt, if_pos,
          eq_false_of_ne_true hp, List.length_cons, if_neg, Bool.false_eq_true,
          not_false_eq_true]
        omega
      · simp only [List.map_cons, List.filter_cons, eq_false_of_ne_true hp,
          eq_false_of_ne_true hpt, Bool.false_eq_true, not_false_eq_true, if_neg]
        exact ih2

lemma openCount_append_one (db : DB) (E : List Equipment) (txn : EquipmentTransaction)
    (n : Nat) (x : Nat) :
    openCount { db with
        equipment := E
        transactions := db.transactions ++ [txn]
        nextTransactionId := n } x
      = openCount db x + (if txn.equipment_id == x && isOpenTxn txn then 1 else 0) := by
  simp only [openCount, openLedger, List.filter_append]
  by_cases h : (txn.equipment_id == x && isOpenTxn txn) = true
  · simp [List.filter_cons, h]
  · simp only [List.length_append, List.filter_cons, h, if_neg]
    simp [Bool.eq_false_iff.mpr h]

lemma selectEquipmentById_mem {db : DB} {eid : Nat} {e : Equipment}
    (h : selectEquipmentById db eid = some e) : e ∈ db.equipment :=
  List.mem_of_find?_eq_some h

lemma selectEquipmentById_id {db : DB} {eid : Nat} {e : Equipment}
    (h : selectEquipmentById db eid = some e) : e.id = eid := by
  have := List.find?_some h
  simpa [beq_iff_eq] using this

lemma strongInv_insertOpen (db : DB) (now n eid : Nat) (st : EquipmentStatus)
    (txn : EquipmentTransaction) (e : Equipment)
    (hInv : StrongInv db)
    (hfind : selectEquipmentById db eid = some e)
    (hav : e.status = .available)
    (hst : st = .checked_out ∨ st = .booked)
    (hteid : txn.equipment_id = eid)
    (htype : txn.transaction_type = .check_out ∨ txn.transaction_type = .booking)
    (hnull : txn.actual_return_date = none) :
    StrongInv { db with
      equipment := db.equipment.map (fun x =>
        if x.id == eid then { x with status := st, updated_at := now } else x)
      transactions := db.transactions ++ [txn]
      nextTransactionId := n } := by
  obtain ⟨hA, hB, hC, hD, hE⟩ := hInv
  have he_mem : e ∈ db.equipment := selectEquipmentById_mem hfind
  have he_id : e.id = eid := selectEquipmentById_id hfind
  have hzero : openCount db eid = 0 := he_id ▸ hB e he_mem (Or.inl hav)
  have hopen : isOpenTxn txn = true := by
    rcases htype with h1 | h1 <;> simp [isOpenTxn, h1, hnull]
  have hcount : ∀ x, openCount { db with
      equipment := db.equipment.map (fun y =>
        if y.id == eid then { y with status := st, updated_at := now } else y)
      transactions := db.transactions ++ [txn]
      nextTransactionId := n } x
      = openCount db x + (if txn.equipment_id == x then 1 else 0) := by
    intro x
    rw [openCount_append_one]
    simp [hopen]
  refine ⟨?_, ?_, ?_, ?_, ?_⟩
  · intro x
    rw [hcount x]
    by_cases hx : txn.equipment_id = x
    · have : openCount db x = 0 := by rw [← hx, hteid]; exact hzero
      simp [hx, this]
    · simp [hx, hA x]
  · intro e2 he2
    rw [List.mem_map] at he2
    obtain ⟨x, hx, rfl⟩ := he2
    by_cases hxe : x.id = eid
    · intro hsm
      rcases hst with rfl | rfl <;> simp [hxe] at hsm
    · intro hsm
      have hxe2 : (x.id == eid) = false := by simp [hxe]
      rw [hxe2] at hsm ⊢
      simp only [if_neg Bool.false_ne_true] at hsm ⊢
      rw [hcount x.id]
      have h0 : openCount db x.id = 0 := hB x hx hsm
      have hne : txn.equipment_id ≠ x.id := by rw [hteid]; exact fun h => hxe h.symm
      simp [h0, hne]
  · intro t ht
    rcases List.mem_append.mp ht with h | h
    · exact hC t h
    · rcases List.mem_singleton.mp h with rfl
      have := hD e he_mem
      simp only [hteid, ← he_id]
      exact this
  · intro e2 he2
    rw [List.mem_map] at he2
    obtain ⟨x, hx, rfl⟩ := he2
    have := hD x hx
    by_cases hxe : (x.id == eid) = true <;> simp [hxe, this]
  · intro t ht
    rcases List.mem_append.mp ht with h | h
    · exact hE t h
    · rcases List.mem_singleton.mp h with rfl
      intro hci
      rcases htype with h1 | h1 <;> rw [h1] at hci <;> cases hci

lemma strongInv_checkOut (db : DB) (now : Nat) (input : CheckOutEquipmentInput)
    (hInv : StrongInv db) :
    StrongInv (match checkOutEquipment db now input with
      | .ok (_, db2) => db2
      | .error _ => db) := by
  unfold checkOutEquipment
  cases hA : selectAdminById db input.admin_id with
  | none => exact hInv
  | some a =>
    cases hE : selectEquipmentById db input.equipment_id with
    | none => exact hInv
    | some e =>
      dsimp only
      by_cases hs : e.status = .available
      · rw [if_neg (not_ne_iff.mpr hs)]
        exact strongInv_insertOpen db now (db.nextTransactionId + 1) input.equipment_id
          .checked_out _ e hInv hE hs (Or.inl rfl) rfl (Or.inl rfl) rfl
      · rw [if_pos hs]
        exact hInv

lemma strongInv_book (db : DB) (now : Nat) (input : BookEquipmentInput)
    (hInv : StrongInv db) :
    StrongInv (match bookEquipment db now input with
      | .ok (_, db2) => db2
      | .error _ => db) := by
  unfold bookEquipment
  cases hA : selectAdminById db input.admin_id with
  | none => exact hInv
  | some a =>
    cases hE : selectEquipmentById db input.equipment_id with
    | none => exact hInv
    | some e =>
      dsimp only
      by_cases hs : e.status = .available
      · rw [if_neg (not_ne_iff.mpr hs)]
        exact strongInv_insertOpen db now (db.nextTransactionId + 1) input.equipment_id
          .booked _ e hInv hE hs (Or.inr rfl) rfl (Or.inr rfl) rfl
      · rw [if_pos hs]
        exact hInv

lemma openCount_closed_append (db : DB) (E : List Equipment)
    (L : List EquipmentTransaction) (ci : EquipmentTransaction) (n x : Nat)
    (hci : isOpenTxn ci = false) :
    openCount { db with
        equipment := E
        transactions := L ++ [ci]
        nextTransactionId := n } x
      = (L.filter (fun t => t.equipment_id == x && isOpenTxn t)).length := by
  simp [openCount, openLedger, List.filter_append, List.filter_cons, hci]

lemma strongInv_checkIn (db : DB) (now : Nat) (input : CheckInEquipmentInput)
    (hInv : StrongInv db) :
    StrongInv (match checkInEquipment db now input with
      | .ok (_, db2) => db2
      | .error _ => db) := by
  obtain ⟨hA, hB, hC, hD, hE⟩ := hInv
  unfold checkInEquipment
  cases hEq : selectEquipmentById db input.equipment_id with
  | none => exact ⟨hA, hB, hC, hD, hE⟩
  | some e =>
    dsimp only
    by_cases hs : e.status ≠ .checked_out ∧ e.status ≠ .booked
    · rw [if_pos hs]
      exact ⟨hA, hB, hC, hD, hE⟩
    · rw [if_neg hs]
      have he_mem : e ∈ db.equipment := selectEquipmentById_mem hEq
      have he_id : e.id = input.equipment_id := selectEquipmentById_id hEq
      have hfilters : selectUnreturnedFor db input.equipment_id
          = openLedger db input.equipment_id := by
        unfold selectUnreturnedFor openLedger
        refine List.filter_congr ?_
        intro t ht
        by_cases hteq : (t.equipment_id == input.equipment_id) = true
        · simp only [hteq, Bool.true_and]
          by_cases hnull : t.actual_return_date = none
          · have hnc : t.transaction_type ≠ .check_in := fun hci => (hE t ht hci) hnull
            cases htype : t.transaction_type with
            | check_in => exact absurd htype hnc
            | check_out => simp [isOpenTxn, htype, hnull]
            | booking => simp [isOpenTxn, htype, hnull]
          · simp [isOpenTxn, Option.isNone_iff_eq_none, hnull]
        · simp [eq_false_of_ne_true hteq]
      have hciOpen : ∀ ci : EquipmentTransaction,
          ci.transaction_type = .check_in → isOpenTxn ci = false := by
        intro ci hty
        simp [isOpenTxn, hty]
      cases hL : openLedger db input.equipment_id with
      | nil =>
        rw [hfilters, hL]
        simp only [latestCreated]
        have hzero : openCount db input.equipment_id = 0 := by
          unfold openCount
          rw [hL]
          rfl
        refine ⟨?_, ?_, ?_, ?_, ?_⟩
        · intro x
          rw [openCount_closed_append db _ _ _ _ x (hciOpen _ rfl)]
          exact hA x
        · intro e2 he2
          rw [List.mem_map] at he2
          obtain ⟨x, hx, rfl⟩ := he2
          intro hsm
          rw [openCount_closed_append db _ _ _ _ _ (hciOpen _ rfl)]
          by_cases hxe : (x.id == input.equipment_id) = true
          · simp only [hxe, if_pos] at hsm ⊢
            have : x.id = input.equipment_id := by simpa [beq_iff_eq] using hxe
            rw [this]
            exact hzero
          · simp only [hxe, Bool.false_eq_true, not_false_eq_true, if_neg] at hsm ⊢
            exact hB x hx hsm
        · intro t ht
          rcases List.mem_append.mp ht with h | h
          · exact hC t h
          · rcases List.mem_singleton.mp h with rfl
            simpa [← he_id] using hD e he_mem
        · intro e2 he2
          rw [List.mem_map] at he2
          obtain ⟨x, hx, rfl⟩ := he2
          have := hD x hx
          by_cases hxe : (x.id == input.equipment_id) = true <;> simp [hxe, this]
        · intro t ht
          rcases List.mem_append.mp ht with h | h
          · exact hE t h
          · rcases List.mem_singleton.mp h with rfl
            intro _
            simp
      | cons t0 rest =>
        have hrest : rest = [] := by
          have h1 := hA input.equipment_id
          unfold openCount at h1
          rw [hL] at h1
          simp only [List.length_cons] at h1
          exact List.length_eq_zero.mp (by omega)
        subst hrest
        have ht0 : t0 ∈ db.transactions ∧
            (t0.equipment_id == input.equipment_id && isOpenTxn t0) = true := by
          have hmem : t0 ∈ openLedger db input.equipment_id := by
            rw [hL]; exact List.mem_cons_self _ _
          unfold openLedger at hmem
          exact List.mem_filter.mp hmem
        have ht0eid : t0.equipment_id = input.equipment_id := by
          have := (Bool.and_eq_true _ _).mp ht0.2
          simpa [beq_iff_eq] using this.1
        have ht0open : isOpenTxn t0 = true := ((Bool.and_eq_true _ _).mp ht0.2).2
        rw [hfilters, hL]
        simp only [latestCreated]
        have hstampLe : ∀ x,
            ((db.transactions.map (fun t =>
                if t.id == t0.id then { t with actual_return_date := some now } else t)).filter
              (fun t => t.equipment_id == x && isOpenTxn t)).length
            ≤ openCount db x := by
          intro x
          unfold openCount openLedger
          apply length_filter_map_le
          intro t _ hp
          by_cases hid : (t.id == t0.id) = true
          · exfalso
            rw [if_pos hid] at hp
            simp [isOpenTxn] at hp
          · rw [if_neg (by simp [hid])]
        have hstampNil :
            ((db.transactions.map (fun t =>
                if t.id == t0.id then { t with actual_return_date := some now } else t)).filter
              (fun t => t.equipment_id == input.equipment_id && isOpenTxn t)) = [] := by
          rw [List.filter_eq_nil_iff]
          intro u hu
          rw [List.mem_map] at hu
          obtain ⟨t, ht, rfl⟩ := hu
          by_cases hid : (t.id == t0.id) = true
          · rw [if_pos hid]
            simp [isOpenTxn]
          · rw [if_neg (by simp [hid])]
            intro hcontra
            have htL : t ∈ openLedger db input.equipment_id := by
              unfold openLedger
              exact List.mem_filter.mpr ⟨ht, hcontra⟩
            rw [hL] at htL
            rcases List.mem_singleton.mp htL with rfl
            simp at hid
        refine ⟨?_, ?_, ?_, ?_, ?_⟩
        · intro x
          rw [openCount_closed_append db _ _ _ _ x (hciOpen _ rfl)]
          exact le_trans (hstampLe x) (hA x)
        · intro e2 he2
          rw [List.mem_map] at he2
          obtain ⟨x, hx, rfl⟩ := he2
          intro hsm
          rw [openCount_closed_append db _ _ _ _ _ (hciOpen _ rfl)]
          by_cases hxe : (x.id == input.equipment_id) = true
          · simp only [hxe, if_pos] at hsm ⊢
            have hxid : x.id = input.equipment_id := by simpa [beq_iff_eq] using hxe
            rw [hxid, hstampNil]
            rfl
          · simp only [hxe, Bool.false_eq_true, not_false_eq_true, if_neg] at hsm ⊢
            have h0 : openCount db x.id = 0 := hB x hx hsm
            have := hstampLe x.id
            omega
        · intro t ht
          rcases List.mem_append.mp ht with h | h
          · rw [List.mem_map] at h
            obtain ⟨u, hu, rfl⟩ := h
            have := hC u hu
            by_cases hid : (u.id == t0.id) = true
            · rw [if_pos hid]; exact this
            · rw [if_neg (by simp [hid])]; exact this
          · rcases List.mem_singleton.mp h with rfl
            simpa [← he_id] using hD e he_mem
        · intro e2 he2
          rw [List.mem_map] at he2
          obtain ⟨x, hx, rfl⟩ := he2
          have := hD x hx
          by_cases hxe : (x.id == input.equipment_id) = true <;> simp [hxe, this]
        · intro t ht
          rcases List.mem_append.mp ht with h | h
          · rw [List.mem_map] at h
            obtain ⟨u, hu, rfl⟩ := h
            by_cases hid : (u.id == t0.id) = true
            · rw [if_pos hid]
              intro _
              simp
            · rw [if_neg (by simp [hid])]
              exact hE u hu
          · rcases List.mem_singleton.mp h with rfl
            intro _
            simp

lemma strongInv_delete (db : DB) (id : Nat) (hInv : StrongInv db) :
    StrongInv (match deleteEquipment db id with
      | .ok (_, db2) => db2
      | .error _ => db) := by
  obtain ⟨hA, hB, hC, hD, hE⟩ := hInv
  unfold deleteEquipment
  cases hEq : selectEquipmentById db id with
  | none => exact ⟨hA, hB, hC, hD, hE⟩
  | some e =>
    dsimp only
    by_cases hg : (selectUnreturnedFor db id).length > 0
    · rw [if_pos hg]
      exact ⟨hA, hB, hC, hD, hE⟩
    · rw [if_neg hg]
      dsimp only
      have hsub : ∀ x,
          openCount { db with
            transactions := db.transactions.filter (fun t => !(t.equipment_id == id))
            equipment := db.equipment.filter (fun e2 => !(e2.id == id)) } x
          ≤ openCount db x := by
        intro x
        unfold openCount openLedger
        exact (((List.filter_sublist db.transactions).filter _)).length_le
      refine ⟨?_, ?_, ?_, ?_, ?_⟩
      · intro x
        exact le_trans (hsub x) (hA x)
      · intro e2 he2
        have h2 := (List.mem_filter.mp he2).1
        intro hsm
        have h0 : openCount db e2.id = 0 := hB e2 h2 hsm
        have := hsub e2.id
        omega
      · intro t ht
        exact hC t (List.mem_filter.mp ht).1
      · intro e2 he2
        exact hD e2 (List.mem_filter.mp he2).1
      · intro t ht
        exact hE t (List.mem_filter.mp ht).1

lemma strongInv_create (db : DB) (now : Nat) (input : CreateEquipmentInput)
    (hInv : StrongInv db) :
    StrongInv (createEquipment db now input).2 := by
  obtain ⟨hA, hB, hC, hD, hE⟩ := hInv
  unfold createEquipment
  dsimp only
  refine ⟨?_, ?_, ?_, ?_, ?_⟩
  · intro x
    exact hA x
  · intro e2 he2
    rcases List.mem_append.mp he2 with h | h
    · intro hsm
      exact hB e2 h hsm
    · rcases List.mem_singleton.mp h with rfl
      intro _
      unfold openCount openLedger
      rw [List.length_eq_zero, List.filter_eq_nil_iff]
      intro t ht
      have hlt := hC t ht
      intro hcontra
      have := ((Bool.and_eq_true _ _).mp hcontra).1
      rw [beq_iff_eq] at this
      dsimp only at this
      omega
  · intro t ht
    have := hC t ht
    dsimp only
    omega
  · intro e2 he2
    dsimp only
    rcases List.mem_append.mp he2 with h | h
    · have := hD e2 h
      omega
    · rcases List.mem_singleton.mp h with rfl
      dsimp only
      omega
  · intro t ht
    exact hE t ht

lemma applyUpdate_id (input : UpdateEquipmentInput) (now : Nat) (e : Equipment) :
    (applyUpdate input now e).id = e.id := rfl

lemma applyUpdate_status_of_none (input : UpdateEquipmentInput) (now : Nat)
    (e : Equipment) (h : input.status = none) :
    (applyUpdate input now e).status = e.status := by
  simp [applyUpdate, h]

lemma strongInv_update (db : DB) (now : Nat) (input : UpdateEquipmentInput)
    (hst : input.status = none) (hInv : StrongInv db) :
    StrongInv (updateEquipment db now input).2 := by
  obtain ⟨hA, hB, hC, hD, hE⟩ := hInv
  unfold updateEquipment
  cases hEq : selectEquipmentById db input.id with
  | none => exact ⟨hA, hB, hC, hD, hE⟩
  | some e =>
    dsimp only
    by_cases hf : hasUpdateFields input = true
    · rw [if_pos hf]
      have key : StrongInv { db with
          equipment := db.equipment.map (fun x =>
            if x.id == input.id then applyUpdate input now x else x) } := by
        refine ⟨?_, ?_, ?_, ?_, ?_⟩
        · intro x
          exact hA x
        · intro e2 he2
          rw [List.mem_map] at he2
          obtain ⟨x, hx, rfl⟩ := he2
          by_cases hxe : (x.id == input.id) = true
          · rw [if_pos hxe]
            rw [applyUpdate_status_of_none input now x hst, applyUpdate_id]
            exact hB x hx
          · rw [if_neg (by simp [hxe])]
            exact hB x hx
        · intro t ht
          exact hC t ht
        · intro e2 he2
          rw [List.mem_map] at he2
          obtain ⟨x, hx, rfl⟩ := he2
          by_cases hxe : (x.id == input.id) = true
          · rw [if_pos hxe, applyUpdate_id]
            exact hD x hx
          · rw [if_neg (by simp [hxe])]
            exact hD x hx
        · intro t ht
          exact hE t ht
      cases hFil : (db.equipment.map (fun x =>
          if x.id == input.id then applyUpdate input now x else x)).filter
            (fun x => x.id == input.id) with
      | nil => exact key
      | cons r rs => exact key
    · rw [if_neg hf]
      exact ⟨hA, hB, hC, hD, hE⟩

lemma strongInv_execOp (db : DB) (op : Op) (hg : GoodOp op) (hInv : StrongInv db) :
    StrongInv (execOp db op) := by
  cases op with
  | create now input => exact strongInv_create db now input hInv
  | checkOut now input => exact strongInv_checkOut db now input hInv
  | book now input => exact strongInv_book db now input hInv
  | checkIn now input => exact strongInv_checkIn db now input hInv
  | delete id => exact strongInv_delete db id hInv
  | update now input => exact strongInv_update db now input hg hInv
  | setStatus now id st => exact hg.elim

lemma strongInv_runOps (db : DB) (ops : List Op) (hInv : StrongInv db)
    (hg : ∀ op ∈ ops, GoodOp op) : StrongInv (runOps db ops) := by
  induction ops generalizing db with
  | nil => exact hInv
  | cons op rest ih =>
    exact ih (execOp db op)
      (strongInv_execOp db op (hg op (List.mem_cons_self _ _)) hInv)
      (fun o ho => hg o (List.mem_cons_of_mem _ ho))

lemma strongInv_init (admins : List Admin) : StrongInv (initDB admins) := by
  refine ⟨?_, ?_, ?_, ?_, ?_⟩ <;> simp [initDB, openCount, openLedger]

/-- A concrete admin row for the concrete scenarios below. -/
def demoAdmin : Admin :=
  { id := 1, username := "admin", email := "admin@example.com",
    password_hash := "hash", created_at := 0, updated_at := 0 }

/-- A concrete creation input for an available camera. -/
def demoCreateInput : CreateEquipmentInput :=
  { name := "Camera", serial_number := "CAM001", description := none,
    category := "Video", brand := none, model := none, status := .available }

/-- A concrete check-out request for equipment 1 by admin 1. -/
def demoCheckOutInput : CheckOutEquipmentInput :=
  { equipment_id := 1, admin_id := 1, user_name := "Alice",
    user_contact := none, expected_return_date := none, notes := none }

/-- A concrete check-in request for equipment 1 by admin 1. -/
def demoCheckInInput : CheckInEquipmentInput :=
  { equipment_id := 1, admin_id := 1, notes := none }

/-- The call sequence that defeats the ledger invariant: check the item
out, force its status back to `available` through the maintenance
override, and check it out again. -/
def overrideOps : List Op :=
  [.create 1 demoCreateInput, .checkOut 2 demoCheckOutInput,
   .setStatus 3 1 .available, .checkOut 4 demoCheckOutInput]

/-- A benign call sequence: create, check out, check in. -/
def demoGoodOps : List Op :=
  [.create 1 demoCreateInput, .checkOut 2 demoCheckOutInput,
   .checkIn 3 demoCheckInInput]

/-- Claim C1, counterexample: the invariant is not preserved by every
sequence of the listed public operations.  Starting from a store with one
admin, the sequence create → checkOut → updateEquipmentStatus(available)
→ checkOut reaches a state in which equipment 1 exists and is referenced
by two transactions that are open (type `check_out`/`booking` with
`actual_return_date` null). -/
theorem c1_counterexample_two_open :
    ((runOps (initDB [demoAdmin]) overrideOps).equipment.any (fun e => e.id == 1)) = true ∧
    openCount (runOps (initDB [demoAdmin]) overrideOps) 1 = 2 := by
  constructor <;> decide

/-- Claim C1 (amended): for every equipment item, in every state reachable
by a sequence of the public operations that never uses the
`updateEquipmentStatus` override and never passes a `status` field to
`updateEquipment`, at most one transaction referencing that equipment has
`transaction_type` in check_out/booking and `actual_return_date` null. -/
theorem c1_amended_ledger_invariant (admins : List Admin) (ops : List Op)
    (hg : ∀ op ∈ ops, GoodOp op) (eid : Nat) :
    openCount (runOps (initDB admins) ops) eid ≤ 1 :=
  (strongInv_runOps (initDB admins) ops (strongInv_init admins) hg).1 eid

/-- Witness for the amended C1 theorem at a concrete benign sequence. -/
theorem c1_amended_ledger_invariant_witness :
    (∀ op ∈ demoGoodOps, GoodOp op) ∧
    openCount (runOps (initDB [demoAdmin]) demoGoodOps) 1 ≤ 1 :=
  ⟨by decide, c1_amended_ledger_invariant [demoAdmin] demoGoodOps (by decide) 1⟩

/-- The equipment row produced by `demoCreateInput` at time 1. -/
def demoEquipment : Equipment :=
  { id := 1, name := "Camera", serial_number := "CAM001", description := none,
    category := "Video", brand := none, model := none, status := .available,
    created_at := 1, updated_at := 1 }

/-- A store holding one admin and one available equipment item. -/
def demoDB : DB :=
  { admins := [demoAdmin], equipment := [demoEquipment], transactions := [],
    nextEquipmentId := 2, nextTransactionId := 1 }

/-- Claim C2: checkOutEquipment rejects a missing admin with a NotFound
message naming the admin id, a missing equipment with a NotFound message
naming the equipment id, a non-available status with an InvalidTransition
message surfacing the current status value; from `available` it marks the
equipment `checked_out` with `updated_at := now`, appends a `check_out`
transaction with null `actual_return_date` and the input
`expected_return_date`, and returns that inserted transaction. -/
theorem c2_checkOut_contract (db : DB) (now : Nat) (input : CheckOutEquipmentInput) :
    (selectAdminById db input.admin_id = none →
      checkOutEquipment db now input =
        .error ("Admin with id " ++ toString input.admin_id ++ " not found")) ∧
    (∀ a, selectAdminById db input.admin_id = some a →
      selectEquipmentById db input.equipment_id = none →
      checkOutEquipment db now input =
        .error ("Equipment with id " ++ toString input.equipment_id ++ " not found")) ∧
    (∀ a e, selectAdminById db input.admin_id = some a →
      selectEquipmentById db input.equipment_id = some e →
      e.status ≠ .available →
      checkOutEquipment db now input =
        .error ("Equipment is not available (current status: " ++ statusText e.status ++ ")")) ∧
    (∀ a e, selectAdminById db input.admin_id = some a →
      selectEquipmentById db input.equipment_id = some e →
      e.status = .available →
      ∃ t db2, checkOutEquipment db now input = .ok (t, db2) ∧
        t.transaction_type = .check_out ∧
        t.actual_return_date = none ∧
        t.expected_return_date = input.expected_return_date ∧
        t.user_name = input.user_name ∧
        t.admin_id = input.admin_id ∧
        t.equipment_id = input.equipment_id ∧
        db2.transactions = db.transactions ++ [t] ∧
        db2.admins = db.admins ∧
        (∀ x ∈ db.equipment, x.id ≠ input.equipment_id → x ∈ db2.equipment) ∧
        (∀ x ∈ db2.equipment, x.id = input.equipment_id →
          x.status = .checked_out ∧ x.updated_at = now) ∧
        (∃ x ∈ db2.equipment, x.id = input.equipment_id)) := by
  refine ⟨?_, ?_, ?_, ?_⟩
  · intro hA
    unfold checkOutEquipment
    rw [hA]
  · intro a hA hE
    unfold checkOutEquipment
    rw [hA, hE]
  · intro a e hA hE hs
    unfold checkOutEquipment
    rw [hA, hE]
    dsimp only
    rw [if_pos hs]
  · intro a e hA hE hs
    have he_id : e.id = input.equipment_id := selectEquipmentById_id hE
    have he_mem : e ∈ db.equipment := selectEquipmentById_mem hE
    unfold checkOutEquipment
    rw [hA, hE]
    dsimp only
    rw [if_neg (not_ne_iff.mpr hs)]
    refine ⟨_, _, rfl, rfl, rfl, rfl, rfl, rfl, rfl, rfl, rfl, ?_, ?_, ?_⟩
    · intro x hx hxne
      refine List.mem_map.mpr ⟨x, hx, ?_⟩
      rw [if_neg (by simp [hxne])]
    · intro x hx hxid
      rw [List.mem_map] at hx
      obtain ⟨y, hy, rfl⟩ := hx
      by_cases hye : (y.id == input.equipment_id) = true
      · rw [if_pos hye] at hxid ⊢
        exact ⟨rfl, rfl⟩
      · rw [if_neg (by simp [hye])] at hxid ⊢
        exact absurd hxid (by simpa [beq_iff_eq] using hye)
    · refine ⟨_, List.mem_map.mpr ⟨e, he_mem, rfl⟩, ?_⟩
      by_cases hee : (e.id == input.equipment_id) = true
      · rw [if_pos hee]
        exact he_id
      · rw [if_neg (by simp [hee])]
        exact he_id

/-- Witness for C2: the success branch at the concrete store. -/
theorem c2_checkOut_contract_witness :
    ∃ t db2, checkOutEquipment demoDB 2 demoCheckOutInput = .ok (t, db2) ∧
      t.transaction_type = .check_out ∧ t.actual_return_date = none := by
  obtain ⟨t, db2, h1, h2, h3, _⟩ :=
    (c2_checkOut_contract demoDB 2 demoCheckOutInput).2.2.2 demoAdmin demoEquipment rfl rfl rfl
  exact ⟨t, db2, h1, h2, h3⟩

/-- The open check-out transaction produced by `demoCheckOutInput` at time 2. -/
def demoOpenTxn : EquipmentTransaction :=
  { id := 1, equipment_id := 1, admin_id := 1, transaction_type := .check_out,
    user_name := "Alice", user_contact := none, notes := none,
    transaction_date := 2, expected_return_date := none,
    actual_return_date := none, created_at := 2 }

/-- The demo equipment after the check-out at time 2. -/
def demoCheckedOutEquipment : Equipment :=
  { demoEquipment with status := .checked_out, updated_at := 2 }

/-- A store in which equipment 1 is checked out with one open transaction. -/
def demoCheckedOutDB : DB :=
  { admins := [demoAdmin], equipment := [demoCheckedOutEquipment],
    transactions := [demoOpenTxn], nextEquipmentId := 2, nextTransactionId := 2 }

/-- Claim C3: checkInEquipment on an existing item with status
`checked_out` or `booked` succeeds, sets status to `available` with a
fresh `updated_at`, stamps the prior open ledger record (when the
unreturned query yields exactly that record), and inserts and returns a
new `check_in` transaction with the `"System"` sentinel user, null
`user_contact` and `expected_return_date`, and the check-in timestamp as
`actual_return_date` — a transaction distinct from the reconciled
original; on `available` or `maintenance` it fails stating the current
status, with distinct messages for the two statuses. -/
theorem c3_checkIn_contract (db : DB) (now : Nat) (input : CheckInEquipmentInput) :
    (∀ e, selectEquipmentById db input.equipment_id = some e →
      (e.status = .checked_out ∨ e.status = .booked) →
      ∃ t db2, checkInEquipment db now input = .ok (t, db2) ∧
        t.transaction_type = .check_in ∧
        t.user_name = "System" ∧
        t.user_contact = none ∧
        t.expected_return_date = none ∧
        t.actual_return_date = some now ∧
        t ∈ db2.transactions ∧
        (∀ x ∈ db2.equipment, x.id = input.equipment_id →
          x.status = .available ∧ x.updated_at = now) ∧
        (∀ t0, selectUnreturnedFor db input.equipment_id = [t0] →
          { t0 with actual_return_date := some now } ∈ db2.transactions ∧ t ≠ t0)) ∧
    (∀ e, selectEquipmentById db input.equipment_id = some e →
      e.status = .available →
      checkInEquipment db now input =
        .error ("Equipment is currently " ++ statusText .available ++ ", cannot check in")) ∧
    (∀ e, selectEquipmentById db input.equipment_id = some e →
      e.status = .maintenance →
      checkInEquipment db now input =
        .error ("Equipment is currently " ++ statusText .maintenance ++ ", cannot check in")) ∧
    ("Equipment is currently " ++ statusText .available ++ ", cannot check in")
      ≠ ("Equipment is currently " ++ statusText .maintenance ++ ", cannot check in") := by
  refine ⟨?_, ?_, ?_, by decide⟩
  · intro e hEq hsb
    unfold checkInEquipment
    rw [hEq]
    dsimp only
    have hcond : ¬(e.status ≠ .checked_out ∧ e.status ≠ .booked) := by
      rcases hsb with h | h <;> simp [h]
    rw [if_neg hcond]
    refine ⟨_, _, rfl, rfl, rfl, rfl, rfl, rfl, ?_, ?_, ?_⟩
    · exact List.mem_append_right _ (List.mem_singleton.mpr rfl)
    · intro x hx hxid
      rw [List.mem_map] at hx
      obtain ⟨y, hy, rfl⟩ := hx
      by_cases hye : (y.id == input.equipment_id) = true
      · rw [if_pos hye] at hxid ⊢
        exact ⟨rfl, rfl⟩
      · rw [if_neg (by simp [hye])] at hxid ⊢
        exact absurd hxid (by simpa [beq_iff_eq] using hye)
    · intro t0 hU
      have ht0mem : t0 ∈ db.transactions := by
        have : t0 ∈ selectUnreturnedFor db input.equipment_id := by
          rw [hU]; exact List.mem_singleton.mpr rfl
        exact (List.mem_filter.mp this).1
      have ht0null : t0.actual_return_date = none := by
        have : t0 ∈ selectUnreturnedFor db input.equipment_id := by
          rw [hU]; exact List.mem_singleton.mpr rfl
        have h2 := (List.mem_filter.mp this).2
        have := ((Bool.and_eq_true _ _).mp h2).2
        exact Option.isNone_iff_eq_none.mp this
      constructor
      · apply List.mem_append_left
        rw [hU]
        simp only [latestCreated]
        exact List.mem_map.mpr ⟨t0, ht0mem, by rw [if_pos (by simp)]⟩
      · intro hcontra
        have : t0.actual_return_date = some now := by rw [← hcontra]
        rw [ht0null] at this
        cases this
  · intro e hEq hs
    unfold checkInEquipment
    rw [hEq]
    dsimp only
    rw [if_pos (by rw [hs]; exact ⟨by decide, by decide⟩), hs]
  · intro e hEq hs
    unfold checkInEquipment
    rw [hEq]
    dsimp only
    rw [if_pos (by rw [hs]; exact ⟨by decide, by decide⟩), hs]

/-- Witness for C3: checking in the concrete checked-out store. -/
theorem c3_checkIn_contract_witness :
    ∃ t db2, checkInEquipment demoCheckedOutDB 3 demoCheckInInput = .ok (t, db2) ∧
      t.user_name = "System" ∧ t.actual_return_date = some 3 := by
  obtain ⟨t, db2, h1, _, h3, _, _, h6, _⟩ :=
    (c3_checkIn_contract demoCheckedOutDB 3 demoCheckInInput).1
      demoCheckedOutEquipment rfl (Or.inl rfl)
  exact ⟨t, db2, h1, h3, h6⟩

lemma latestCreated_mem {L : List EquipmentTransaction} {u : EquipmentTransaction}
    (h : latestCreated L = some u) : u ∈ L := by
  induction L with
  | nil => cases h
  | cons t ts ih =>
    unfold latestCreated at h
    cases hLC : latestCreated ts with
    | none =>
      rw [hLC] at h
      cases h
      exact List.mem_cons_self _ _
    | some v =>
      rw [hLC] at h
      dsimp only at h
      by_cases hgt : v.created_at > t.created_at
      · rw [if_pos hgt] at h
        cases h
        exact List.mem_cons_of_mem _ (ih hLC)
      · rw [if_neg hgt] at h
        cases h
        exact List.mem_cons_self _ _

lemma latestCreated_eq_max (L : List EquipmentTransaction) (t0 : EquipmentTransaction)
    (hmem : t0 ∈ L) (hmax : ∀ u ∈ L, u ≠ t0 → u.created_at < t0.created_at) :
    latestCreated L = some t0 := by
  induction L with
  | nil => cases hmem
  | cons t ts ih =>
    rcases List.mem_cons.mp hmem with rfl | hmem2
    · cases hLC : latestCreated ts with
      | none => simp [latestCreated, hLC]
      | some u =>
        have hu : u ∈ ts := latestCreated_mem hLC
        by_cases hut : u = t0
        · subst hut
          simp [latestCreated, hLC]
        · have := hmax u (List.mem_cons_of_mem _ hu) hut
          simp [latestCreated, hLC]
          omega
    · have hLC : latestCreated ts = some t0 :=
        ih hmem2 (fun u hu hne => hmax u (List.mem_cons_of_mem _ hu) hne)
      by_cases hte : t = t0
      · subst hte
        simp [latestCreated, hLC]
      · have := hmax t (List.mem_cons_self _ _) hte
        simp [latestCreated, hLC]
        omega

/-- Claim C4: the reconciliation of checkInEquipment selects, among all
transactions for the equipment whose `actual_return_date` is null, the
most recently created one and stamps its `actual_return_date` with the
check-in timestamp, leaving every other transaction untouched; when no
such transaction exists, nothing is stamped and the check-in still
succeeds. -/
theorem c4_reconciliation_selects_latest (db : DB) (now : Nat)
    (input : CheckInEquipmentInput) :
    ∀ e, selectEquipmentById db input.equipment_id = some e →
      (e.status = .checked_out ∨ e.status = .booked) →
      (selectUnreturnedFor db input.equipment_id = [] →
        ∃ t db2, checkInEquipment db now input = .ok (t, db2) ∧
          db2.transactions = db.transactions ++ [t]) ∧
      (∀ t0, t0 ∈ selectUnreturnedFor db input.equipment_id →
        (∀ u ∈ selectUnreturnedFor db input.equipment_id,
          u ≠ t0 → u.created_at < t0.created_at) →
        ∃ t db2, checkInEquipment db now input = .ok (t, db2) ∧
          db2.transactions = db.transactions.map (fun u =>
            if u.id == t0.id then { u with actual_return_date := some now } else u)
            ++ [t]) := by
  intro e hEq hsb
  have hcond : ¬(e.status ≠ .checked_out ∧ e.status ≠ .booked) := by
    rcases hsb with h | h <;> simp [h]
  constructor
  · intro hU
    unfold checkInEquipment
    rw [hEq]
    dsimp only
    rw [if_neg hcond, hU]
    simp only [latestCreated]
    exact ⟨_, _, rfl, rfl⟩
  · intro t0 hmem hmax
    have hlat : latestCreated (selectUnreturnedFor db input.equipment_id) = some t0 :=
      latestCreated_eq_max _ t0 hmem hmax
    unfold checkInEquipment
    rw [hEq]
    dsimp only
    rw [if_neg hcond, hlat]
    exact ⟨_, _, rfl, rfl⟩

/-- Witness for C4 at the concrete checked-out store with one open row. -/
theorem c4_reconciliation_selects_latest_witness :
    ∃ t db2, checkInEquipment demoCheckedOutDB 3 demoCheckInInput = .ok (t, db2) ∧
      db2.transactions = demoCheckedOutDB.transactions.map (fun u =>
        if u.id == demoOpenTxn.id then { u with actual_return_date := some 3 } else u)
        ++ [t] :=
  ((c4_reconciliation_selects_latest demoCheckedOutDB 3 demoCheckInInput)
    demoCheckedOutEquipment rfl (Or.inl rfl)).2 demoOpenTxn (by decide)
    (by decide)

/-- A concrete booking request for equipment 1 by admin 1. -/
def demoBookInput : BookEquipmentInput :=
  { equipment_id := 1, admin_id := 1, user_name := "Bob",
    user_contact := none, expected_return_date := 10, notes := none }

/-- Claim C5: bookEquipment (whose input type makes `expected_return_date`
mandatory) rejects a missing admin or equipment with NotFound messages
naming the id, rejects any non-`available` status with a message quoting
the current status, and from `available` marks the equipment `booked`
with a fresh `updated_at` and inserts a `booking` transaction carrying
the given `expected_return_date` and a null `actual_return_date`. -/
theorem c5_book_contract (db : DB) (now : Nat) (input : BookEquipmentInput) :
    (selectAdminById db input.admin_id = none →
      bookEquipment db now input =
        .error ("Admin with id " ++ toString input.admin_id ++ " not found")) ∧
    (∀ a, selectAdminById db input.admin_id = some a →
      selectEquipmentById db input.equipment_id = none →
      bookEquipment db now input =
        .error ("Equipment with id " ++ toString input.equipment_id ++ " not found")) ∧
    (∀ a e, selectAdminById db input.admin_id = some a →
      selectEquipmentById db input.equipment_id = some e →
      e.status ≠ .available →
      bookEquipment db now input =
        .error ("Equipment is not available for booking. Current status: " ++ statusText e.status)) ∧
    (∀ a e, selectAdminById db input.admin_id = some a →
      selectEquipmentById db input.equipment_id = some e →
      e.status = .available →
      ∃ t db2, bookEquipment db now input = .ok (t, db2) ∧
        t.transaction_type = .booking ∧
        t.actual_return_date = none ∧
        t.expected_return_date = some input.expected_return_date ∧
        t.user_name = input.user_name ∧
        t.admin_id = input.admin_id ∧
        t.equipment_id = input.equipment_id ∧
        db2.transactions = db.transactions ++ [t] ∧
        db2.admins = db.admins ∧
        (∀ x ∈ db.equipment, x.id ≠ input.equipment_id → x ∈ db2.equipment) ∧
        (∀ x ∈ db2.equipment, x.id = input.equipment_id →
          x.status = .booked ∧ x.updated_at = now) ∧
        (∃ x ∈ db2.equipment, x.id = input.equipment_id)) := by
  refine ⟨?_, ?_, ?_, ?_⟩
  · intro hA
    unfold bookEquipment
    rw [hA]
  · intro a hA hE
    unfold bookEquipment
    rw [hA, hE]
  · intro a e hA hE hs
    unfold bookEquipment
    rw [hA, hE]
    dsimp only
    rw [if_pos hs]
  · intro a e hA hE hs
    have he_id : e.id = input.equipment_id := selectEquipmentById_id hE
    have he_mem : e ∈ db.equipment := selectEquipmentById_mem hE
    unfold bookEquipment
    rw [hA, hE]
    dsimp only
    rw [if_neg (not_ne_iff.mpr hs)]
    refine ⟨_, _, rfl, rfl, rfl, rfl, rfl, rfl, rfl, rfl, rfl, ?_, ?_, ?_⟩
    · intro x hx hxne
      refine List.mem_map.mpr ⟨x, hx, ?_⟩
      rw [if_neg (by simp [hxne])]
    · intro x hx hxid
      rw [List.mem_map] at hx
      obtain ⟨y, hy, rfl⟩ := hx
      by_cases hye : (y.id == input.equipment_id) = true
      · rw [if_pos hye] at hxid ⊢
        exact ⟨rfl, rfl⟩
      · rw [if_neg (by simp [hye])] at hxid ⊢
        exact absurd hxid (by simpa [beq_iff_eq] using hye)
    · refine ⟨_, List.mem_map.mpr ⟨e, he_mem, rfl⟩, ?_⟩
      by_cases hee : (e.id == input.equipment_id) = true
      · rw [if_pos hee]
        exact he_id
      · rw [if_neg (by simp [hee])]
        exact he_id

/-- Witness for C5: the InvalidTransition branch on the checked-out store,
quoting the current status. -/
theorem c5_book_contract_witness :
    bookEquipment demoCheckedOutDB 4 demoBookInput =
      .error ("Equipment is not available for booking. Current status: "
        ++ statusText .checked_out) :=
  (c5_book_contract demoCheckedOutDB 4 demoBookInput).2.2.1
    demoAdmin demoCheckedOutEquipment rfl rfl (by decide)

/-- The demo open transaction after being stamped at time 3. -/
def demoReturnedTxn : EquipmentTransaction :=
  { demoOpenTxn with actual_return_date := some 3 }

/-- A store in which equipment 1 is available again and its only
transaction has been returned. -/
def demoReturnedDB : DB :=
  { admins := [demoAdmin], equipment := [demoEquipment],
    transactions := [demoReturnedTxn], nextEquipmentId := 2, nextTransactionId := 2 }

/-- Claim C6: deleteEquipment returns `false` without error when the
equipment does not exist; it fails with the active-transactions conflict
whenever any transaction referencing the equipment has a null
`actual_return_date`, with no condition on the status field; otherwise it
removes every transaction of the equipment and the equipment row itself
and returns `true`, leaving unrelated rows and the admins table alone. -/
theorem c6_delete_guard (db : DB) (id : Nat) :
    (selectEquipmentById db id = none → deleteEquipment db id = .ok (false, db)) ∧
    (∀ e, selectEquipmentById db id = some e →
      (∃ t ∈ db.transactions, t.equipment_id = id ∧ t.actual_return_date = none) →
      deleteEquipment db id =
        .error "Cannot delete equipment with active transactions. Please check in equipment first.") ∧
    (∀ e, selectEquipmentById db id = some e →
      (∀ t ∈ db.transactions, t.equipment_id = id → t.actual_return_date ≠ none) →
      ∃ db2, deleteEquipment db id = .ok (true, db2) ∧
        (∀ t ∈ db2.transactions, t.equipment_id ≠ id) ∧
        (∀ t ∈ db.transactions, t.equipment_id ≠ id → t ∈ db2.transactions) ∧
        (∀ x ∈ db2.equipment, x.id ≠ id) ∧
        (∀ x ∈ db.equipment, x.id ≠ id → x ∈ db2.equipment) ∧
        db2.admins = db.admins) := by
  refine ⟨?_, ?_, ?_⟩
  · intro h
    unfold deleteEquipment
    rw [h]
  · intro e hEq hopen
    obtain ⟨t, ht, hteid, htnull⟩ := hopen
    have htU : t ∈ selectUnreturnedFor db id := by
      unfold selectUnreturnedFor
      refine List.mem_filter.mpr ⟨ht, ?_⟩
      simp [hteid, htnull]
    have hlen : (selectUnreturnedFor db id).length > 0 :=
      List.length_pos.mpr (List.ne_nil_of_mem htU)
    unfold deleteEquipment
    rw [hEq]
    dsimp only
    rw [if_pos hlen]
  · intro e hEq hclosed
    have hU : selectUnreturnedFor db id = [] := by
      unfold selectUnreturnedFor
      rw [List.filter_eq_nil_iff]
      intro t ht
      intro hcontra
      have h1 := ((Bool.and_eq_true _ _).mp hcontra).1
      have h2 := ((Bool.and_eq_true _ _).mp hcontra).2
      rw [beq_iff_eq] at h1
      exact hclosed t ht h1 (Option.isNone_iff_eq_none.mp h2)
    unfold deleteEquipment
    rw [hEq]
    dsimp only
    rw [if_neg (by rw [hU]; simp)]
    refine ⟨_, rfl, ?_, ?_, ?_, ?_, rfl⟩
    · intro t ht
      have := (List.mem_filter.mp ht).2
      simpa [beq_iff_eq] using this
    · intro t ht htne
      exact List.mem_filter.mpr ⟨ht, by simp [htne]⟩
    · intro x hx
      have := (List.mem_filter.mp hx).2
      simpa [beq_iff_eq] using this
    · intro x hx hxne
      exact List.mem_filter.mpr ⟨hx, by simp [hxne]⟩

/-- Witness for C6: deletion succeeds once the only transaction has been
returned. -/
theorem c6_delete_guard_witness :
    ∃ db2, deleteEquipment demoReturnedDB 1 = .ok (true, db2) ∧
      (∀ t ∈ db2.transactions, t.equipment_id ≠ 1) := by
  obtain ⟨db2, h1, h2, _⟩ :=
    (c6_delete_guard demoReturnedDB 1).2.2 demoEquipment rfl (by decide)
  exact ⟨db2, h1, h2⟩

lemma mem_insertByDateDesc (t u : EquipmentTransaction)
    (L : List EquipmentTransaction) :
    u ∈ insertByDateDesc t L ↔ u = t ∨ u ∈ L := by
  induction L with
  | nil => simp [insertByDateDesc]
  | cons v vs ih =>
    unfold insertByDateDesc
    by_cases h : t.transaction_date ≤ v.transaction_date
    · rw [if_pos h]
      simp only [List.mem_cons, ih]
      tauto
    · rw [if_neg h]
      simp only [List.mem_cons]

lemma mem_sortByDateDesc (u : EquipmentTransaction)
    (L : List EquipmentTransaction) :
    u ∈ sortByDateDesc L ↔ u ∈ L := by
  induction L with
  | nil => simp [sortByDateDesc]
  | cons v vs ih =>
    show u ∈ insertByDateDesc v (sortByDateDesc vs) ↔ _
    rw [mem_insertByDateDesc]
    simp only [List.mem_cons, ih]

lemma pairwise_insertByDateDesc (t : EquipmentTransaction)
    (L : List EquipmentTransaction)
    (h : L.Pairwise (fun a b => b.transaction_date ≤ a.transaction_date)) :
    (insertByDateDesc t L).Pairwise
      (fun a b => b.transaction_date ≤ a.transaction_date) := by
  induction L with
  | nil => simp [insertByDateDesc]
  | cons v vs ih =>
    unfold insertByDateDesc
    rcases List.pairwise_cons.mp h with ⟨hv, hvs⟩
    by_cases hle : t.transaction_date ≤ v.transaction_date
    · rw [if_pos hle]
      refine List.pairwise_cons.mpr ⟨?_, ih hvs⟩
      intro u hu
      rcases (mem_insertByDateDesc t u vs).mp hu with rfl | hu2
      · exact hle
      · exact hv u hu2
    · rw [if_neg hle]
      refine List.pairwise_cons.mpr ⟨?_, h⟩
      intro u hu
      rcases List.mem_cons.mp hu with rfl | hu2
      · omega
      · have := hv u hu2
        omega

lemma pairwise_sortByDateDesc (L : List EquipmentTransaction) :
    (sortByDateDesc L).Pairwise
      (fun a b => b.transaction_date ≤ a.transaction_date) := by
  induction L with
  | nil => simp [sortByDateDesc]
  | cons v vs ih => exact pairwise_insertByDateDesc v (sortByDateDesc vs) ih

/-- Claim C7: for a store whose transactions all reference existing
admins (the foreign-key integrity the schema enforces),
getEquipmentWithTransactions returns the equipment's transactions in
descending `transaction_date` order; `current_user` is null whenever the
status is `available` or `maintenance`; under status `checked_out` (resp.
`booked`) it is non-null exactly when an open transaction of the matching
type exists, and any returned name is the `user_name` of such a matching
open transaction. -/
theorem c7_current_holder (db : DB) (eid : Nat)
    (hInt : ∀ t ∈ db.transactions, ∃ a ∈ db.admins, a.id = t.admin_id) :
    ∀ r, getEquipmentWithTransactions db eid = some r →
      r.transactions.Pairwise (fun a b => b.transaction_date ≤ a.transaction_date) ∧
      (∀ t, t ∈ r.transactions ↔ t ∈ db.transactions ∧ t.equipment_id = eid) ∧
      ((r.equipment.status = .available ∨ r.equipment.status = .maintenance) →
        r.current_user = none) ∧
      (r.equipment.status = .checked_out →
        (r.current_user ≠ none ↔ ∃ t ∈ db.transactions, t.equipment_id = eid ∧
          t.transaction_type = .check_out ∧ t.actual_return_date = none)) ∧
      (r.equipment.status = .booked →
        (r.current_user ≠ none ↔ ∃ t ∈ db.transactions, t.equipment_id = eid ∧
          t.transaction_type = .booking ∧ t.actual_return_date = none)) ∧
      (∀ u, r.current_user = some u →
        ∃ t ∈ db.transactions, t.equipment_id = eid ∧ t.actual_return_date = none ∧
          t.user_name = u ∧
          ((r.equipment.status = .checked_out ∧ t.transaction_type = .check_out) ∨
           (r.equipment.status = .booked ∧ t.transaction_type = .booking))) := by
  intro r hr
  unfold getEquipmentWithTransactions at hr
  cases hEq : selectEquipmentById db eid with
  | none =>
    rw [hEq] at hr
    cases hr
  | some e =>
    rw [hEq] at hr
    dsimp only at hr
    injection hr with hr
    subst hr
    dsimp only
    have hmemJ : ∀ t, t ∈ db.transactions.filter (fun t =>
        t.equipment_id == eid && db.admins.any (fun a => a.id == t.admin_id)) ↔
        t ∈ db.transactions ∧ t.equipment_id = eid := by
      intro t
      rw [List.mem_filter]
      constructor
      · rintro ⟨h1, h2⟩
        have := ((Bool.and_eq_true _ _).mp h2).1
        exact ⟨h1, by simpa [beq_iff_eq] using this⟩
      · rintro ⟨h1, h2⟩
        refine ⟨h1, (Bool.and_eq_true _ _).mpr ⟨by simp [h2], ?_⟩⟩
        obtain ⟨a, ha, haid⟩ := hInt t h1
        exact List.any_eq_true.mpr ⟨a, ha, by simp [haid]⟩
    have hmemS : ∀ t, t ∈ sortByDateDesc (db.transactions.filter (fun t =>
        t.equipment_id == eid && db.admins.any (fun a => a.id == t.admin_id))) ↔
        t ∈ db.transactions ∧ t.equipment_id = eid := by
      intro t
      rw [mem_sortByDateDesc]
      exact hmemJ t
    refine ⟨pairwise_sortByDateDesc _, hmemS, ?_, ?_, ?_, ?_⟩
    · intro h
      rcases h with h | h <;>
        rw [if_neg (by simp [h]), if_neg (by simp [h])]
    · intro hst
      by_cases hlen : (sortByDateDesc (db.transactions.filter (fun t =>
          t.equipment_id == eid && db.admins.any (fun a => a.id == t.admin_id)))).length > 0
      · rw [if_pos ⟨hlen, hst⟩]
        constructor
        · intro hne
          rcases Option.ne_none_iff_exists'.mp hne with ⟨u, hu⟩
          obtain ⟨x, hfind, hxu⟩ := Option.map_eq_some'.mp hu
          have hpx := List.find?_some hfind
          have hxmem := List.mem_of_find?_eq_some hfind
          obtain ⟨hxdb, hxeid⟩ := (hmemS x).mp hxmem
          have h1 := ((Bool.and_eq_true _ _).mp hpx).1
          have h2 := ((Bool.and_eq_true _ _).mp hpx).2
          exact ⟨x, hxdb, hxeid, by simpa [beq_iff_eq] using h1,
            Option.isNone_iff_eq_none.mp h2⟩
        · rintro ⟨t, htdb, hteid, htty, htnull⟩
          have htS := (hmemS t).mpr ⟨htdb, hteid⟩
          have hfind : (List.find? (fun t =>
              t.transaction_type == TransactionType.check_out &&
                t.actual_return_date.isNone)
              (sortByDateDesc (db.transactions.filter (fun t =>
                t.equipment_id == eid &&
                  db.admins.any (fun a => a.id == t.admin_id))))).isSome :=
            List.find?_isSome.mpr ⟨t, htS, by rw [htty, htnull]; rfl⟩
          rcases Option.isSome_iff_exists.mp hfind with ⟨x, hx⟩
          rw [hx]
          simp
      · rw [if_neg (fun hc => hlen hc.1), if_neg (fun hc => hlen hc.1)]
        constructor
        · intro hne
          exact absurd rfl hne
        · rintro ⟨t, htdb, hteid, _, _⟩
          exfalso
          have htS := (hmemS t).mpr ⟨htdb, hteid⟩
          exact hlen (List.length_pos.mpr (List.ne_nil_of_mem htS))
    · intro hst
      have hnotc : ¬((sortByDateDesc (db.transactions.filter (fun t =>
          t.equipment_id == eid && db.admins.any (fun a => a.id == t.admin_id)))).length > 0
          ∧ e.status = .checked_out) := by
        rintro ⟨_, hc⟩
        rw [hst] at hc
        cases hc
      rw [if_neg hnotc]
      by_cases hlen : (sortByDateDesc (db.transactions.filter (fun t =>
          t.equipment_id == eid && db.admins.any (fun a => a.id == t.admin_id)))).length > 0
      · rw [if_pos ⟨hlen, hst⟩]
        constructor
        · intro hne
          rcases Option.ne_none_iff_exists'.mp hne with ⟨u, hu⟩
          obtain ⟨x, hfind, hxu⟩ := Option.map_eq_some'.mp hu
          have hpx := List.find?_some hfind
          have hxmem := List.mem_of_find?_eq_some hfind
          obtain ⟨hxdb, hxeid⟩ := (hmemS x).mp hxmem
          have h1 := ((Bool.and_eq_true _ _).mp hpx).1
          have h2 := ((Bool.and_eq_true _ _).mp hpx).2
          exact ⟨x, hxdb, hxeid, by simpa [beq_iff_eq] using h1,
            Option.isNone_iff_eq_none.mp h2⟩
        · rintro ⟨t, htdb, hteid, htty, htnull⟩
          have htS := (hmemS t).mpr ⟨htdb, hteid⟩
          have hfind : (List.find? (fun t =>
              t.transaction_type == TransactionType.booking &&
                t.actual_return_date.isNone)
              (sortByDateDesc (db.transactions.filter (fun t =>
                t.equipment_id == eid &&
                  db.admins.any (fun a => a.id == t.admin_id))))).isSome :=
            List.find?_isSome.mpr ⟨t, htS, by rw [htty, htnull]; rfl⟩
          rcases Option.isSome_iff_exists.mp hfind with ⟨x, hx⟩
          rw [hx]
          simp
      · rw [if_neg (fun hc => hlen hc.1)]
        constructor
        · intro hne
          exact absurd rfl hne
        · rintro ⟨t, htdb, hteid, _, _⟩
          exfalso
          have htS := (hmemS t).mpr ⟨htdb, hteid⟩
          exact hlen (List.length_pos.mpr (List.ne_nil_of_mem htS))
    · intro u hu
      by_cases hc1 : (sortByDateDesc (db.transactions.filter (fun t =>
          t.equipment_id == eid && db.admins.any (fun a => a.id == t.admin_id)))).length > 0
          ∧ e.status = .checked_out
      · rw [if_pos hc1] at hu
        obtain ⟨x, hfind, hxu⟩ := Option.map_eq_some'.mp hu
        have hpx := List.find?_some hfind
        obtain ⟨hxdb, hxeid⟩ := (hmemS x).mp (List.mem_of_find?_eq_some hfind)
        have h1 := ((Bool.and_eq_true _ _).mp hpx).1
        have h2 := ((Bool.and_eq_true _ _).mp hpx).2
        exact ⟨x, hxdb, hxeid, Option.isNone_iff_eq_none.mp h2, hxu,
          Or.inl ⟨hc1.2, by simpa [beq_iff_eq] using h1⟩⟩
      · rw [if_neg hc1] at hu
        by_cases hc2 : (sortByDateDesc (db.transactions.filter (fun t =>
            t.equipment_id == eid && db.admins.any (fun a => a.id == t.admin_id)))).length > 0
            ∧ e.status = .booked
        · rw [if_pos hc2] at hu
          obtain ⟨x, hfind, hxu⟩ := Option.map_eq_some'.mp hu
          have hpx := List.find?_some hfind
          obtain ⟨hxdb, hxeid⟩ := (hmemS x).mp (List.mem_of_find?_eq_some hfind)
          have h1 := ((Bool.and_eq_true _ _).mp hpx).1
          have h2 := ((Bool.and_eq_true _ _).mp hpx).2
          exact ⟨x, hxdb, hxeid, Option.isNone_iff_eq_none.mp h2, hxu,
            Or.inr ⟨hc2.2, by simpa [beq_iff_eq] using h1⟩⟩
        · rw [if_neg hc2] at hu
          cases hu

/-- Witness for C7: on the concrete checked-out store the current user is
non-null. -/
theorem c7_current_holder_witness :
    ∃ r, getEquipmentWithTransactions demoCheckedOutDB 1 = some r ∧
      r.current_user ≠ none := by
  refine ⟨_, rfl, ?_⟩
  have h := c7_current_holder demoCheckedOutDB 1 (by decide) _ rfl
  exact (h.2.2.2.1 (by decide)).mpr ⟨demoOpenTxn, by decide, by decide, rfl, rfl⟩

/-- The read/validate phase of `checkOutEquipment`: the two SELECT
statements and the status gate, exactly as executed before the first
write.  The handler wraps no transaction around its statements, so this
phase and the write phase below hit the store as separate operations. -/
def checkOutValidate (db : DB) (input : CheckOutEquipmentInput) :
    Except String Equipment :=
  match selectAdminById db input.admin_id with
  | none => .error ("Admin with id " ++ toString input.admin_id ++ " not found")
  | some _ =>
    match selectEquipmentById db input.equipment_id with
    | none => .error ("Equipment with id " ++ toString input.equipment_id ++ " not found")
    | some equipment =>
      if equipment.status ≠ .available then
        .error ("Equipment is not available (current status: " ++ statusText equipment.status ++ ")")
      else .ok equipment

/-- The write phase of `checkOutEquipment`: the UPDATE of the status row
and the INSERT of the `check_out` transaction, unconditional — the UPDATE
carries no status guard in its WHERE clause. -/
def checkOutWrite (db : DB) (now : Nat) (input : CheckOutEquipmentInput) :
    EquipmentTransaction × DB :=
  let updatedEquipment := db.equipment.map (fun e =>
    if e.id == input.equipment_id then
      { e with status := .checked_out, updated_at := now }
    else e)
  let txn : EquipmentTransaction :=
    { id := db.nextTransactionId
      equipment_id := input.equipment_id
      admin_id := input.admin_id
      transaction_type := .check_out
      user_name := input.user_name
      user_contact := presentOrNull input.user_contact
      notes := presentOrNull input.notes
      transaction_date := now
      expected_return_date := input.expected_return_date
      actual_return_date := none
      created_at := now }
  (txn,
    { db with
        equipment := updatedEquipment
        transactions := db.transactions ++ [txn]
        nextTransactionId := db.nextTransactionId + 1 })

/-- The handler is the sequential composition of the two phases. -/
lemma checkOutEquipment_eq_validate_then_write (db : DB) (now : Nat)
    (input : CheckOutEquipmentInput) :
    checkOutEquipment db now input =
      match checkOutValidate db input with
      | .error m => .error m
      | .ok _ => .ok (checkOutWrite db now input) := by
  unfold checkOutEquipment checkOutValidate checkOutWrite
  cases selectAdminById db input.admin_id with
  | none => rfl
  | some a =>
    cases selectEquipmentById db input.equipment_id with
    | none => rfl
    | some e =>
      dsimp only
      by_cases hs : e.status ≠ .available
      · rw [if_pos hs, if_pos hs]
      · rw [if_neg hs, if_neg hs]

/-- A second caller's concurrent check-out request for the same item. -/
def demoCheckOutInputB : CheckOutEquipmentInput :=
  { equipment_id := 1, admin_id := 1, user_name := "Bob",
    user_contact := none, expected_return_date := none, notes := none }

/-- Claim C8: the lifecycle handlers do not run read-validate-write as one
atomic unit.  Interleaving two check-outs on the store `demoDB` — both
validate phases against the initial state, then both write phases — lets
both callers pass the `available` gate and leaves equipment 1 with two
open transactions, breaking the at-most-one-open-transaction invariant
that atomicity is supposed to protect. -/
theorem c8_interleaved_checkouts_break_invariant :
    (∃ e, checkOutValidate demoDB demoCheckOutInput = .ok e) ∧
    (∃ e, checkOutValidate demoDB demoCheckOutInputB = .ok e) ∧
    openCount
      (checkOutWrite (checkOutWrite demoDB 2 demoCheckOutInput).2
        3 demoCheckOutInputB).2 1 = 2 := by
  exact ⟨⟨demoEquipment, rfl⟩, ⟨demoEquipment, rfl⟩, by decide⟩

/-- Claim C9: updateEquipmentStatus overwrites the status with no check
against the current status (any target status, from any current status),
stamps `updated_at := now`, keeps every other field of every equipment
row, never touches the transactions or admins tables, and returns null
exactly when no equipment row has the given id. -/
theorem c9_setStatus_contract (db : DB) (now eid : Nat) (st : EquipmentStatus) :
    ((updateEquipmentStatus db now eid st).1 = none ↔
      selectEquipmentById db eid = none) ∧
    ((updateEquipmentStatus db now eid st).2.transactions = db.transactions) ∧
    ((updateEquipmentStatus db now eid st).2.admins = db.admins) ∧
    (∀ x ∈ db.equipment, x.id ≠ eid →
      x ∈ (updateEquipmentStatus db now eid st).2.equipment) ∧
    (∀ x ∈ db.equipment, x.id = eid →
      { x with status := st, updated_at := now }
        ∈ (updateEquipmentStatus db now eid st).2.equipment) ∧
    (∀ y ∈ (updateEquipmentStatus db now eid st).2.equipment, ∃ x ∈ db.equipment,
      y = if x.id = eid then { x with status := st, updated_at := now } else x) := by
  have hid : ∀ x : Equipment, ((fun e =>
      if e.id == eid then { e with status := st, updated_at := now } else e) x).id
      = x.id := by
    intro x
    dsimp only
    by_cases hxe : (x.id == eid) = true
    · rw [if_pos hxe]
    · rw [if_neg (by simp [hxe])]
  have hkey : ((db.equipment.map (fun e =>
      if e.id == eid then { e with status := st, updated_at := now } else e)).filter
        (fun e => e.id == eid) = [])
      ↔ selectEquipmentById db eid = none := by
    unfold selectEquipmentById
    rw [List.filter_eq_nil_iff, List.find?_eq_none]
    constructor
    · intro h x hx hxe
      exact h _ (List.mem_map.mpr ⟨x, hx, rfl⟩) (by rw [hid x]; exact hxe)
    · intro h y hy hye
      rw [List.mem_map] at hy
      obtain ⟨x, hx, rfl⟩ := hy
      rw [hid x] at hye
      exact h x hx hye
  have hdb2 : (updateEquipmentStatus db now eid st).2 = { db with
      equipment := db.equipment.map (fun e =>
        if e.id == eid then { e with status := st, updated_at := now } else e) } := by
    unfold updateEquipmentStatus
    dsimp only
    cases hf : (db.equipment.map (fun e =>
        if e.id == eid then { e with status := st, updated_at := now } else e)).filter
        (fun e => e.id == eid) with
    | nil => rfl
    | cons r rs => rfl
  refine ⟨?_, by rw [hdb2], by rw [hdb2], ?_, ?_, ?_⟩
  · unfold updateEquipmentStatus
    dsimp only
    cases hf : (db.equipment.map (fun e =>
        if e.id == eid then { e with status := st, updated_at := now } else e)).filter
        (fun e => e.id == eid) with
    | nil => exact ⟨fun _ => hkey.mp hf, fun _ => rfl⟩
    | cons r rs =>
      refine ⟨fun h => Option.noConfusion h, fun h => ?_⟩
      have := hkey.mpr h
      rw [hf] at this
      cases this
  · intro x hx hxne
    rw [hdb2]
    refine List.mem_map.mpr ⟨x, hx, ?_⟩
    rw [if_neg (by simp [hxne])]
  · intro x hx hxe
    rw [hdb2]
    refine List.mem_map.mpr ⟨x, hx, ?_⟩
    rw [if_pos (by simp [hxe])]
  · intro y hy
    rw [hdb2] at hy
    rw [List.mem_map] at hy
    obtain ⟨x, hx, rfl⟩ := hy
    refine ⟨x, hx, ?_⟩
    by_cases hxe : (x.id == eid) = true
    · rw [if_pos hxe, if_pos (by simpa [beq_iff_eq] using hxe)]
    · rw [if_neg (by simp [hxe]), if_neg (by simpa [beq_iff_eq] using hxe)]

/-- Witness for C9: forcing the available demo camera into maintenance. -/
theorem c9_setStatus_contract_witness :
    { demoEquipment with status := .maintenance, updated_at := 5 }
      ∈ (updateEquipmentStatus demoDB 5 1 .maintenance).2.equipment ∧
    (updateEquipmentStatus demoDB 5 1 .maintenance).2.transactions
      = demoDB.transactions :=
  ⟨(c9_setStatus_contract demoDB 5 1 .maintenance).2.2.2.2.1 demoEquipment
      (by decide) rfl,
    (c9_setStatus_contract demoDB 5 1 .maintenance).2.1⟩

/-- A store with an empty admins table but a checked-out item, so that
no admin id can be valid. -/
def noAdminDB : DB :=
  { admins := [], equipment := [demoCheckedOutEquipment],
    transactions := [demoOpenTxn], nextEquipmentId := 2, nextTransactionId := 2 }

/-- A check-in request naming an admin id that exists in no store above. -/
def strangerCheckInInput : CheckInEquipmentInput :=
  { equipment_id := 1, admin_id := 42, notes := none }

/-- Claim C10: checkInEquipment never validates the admin: on any store
and any `admin_id` — even one matching no admin row — check-in of a
`checked_out` or `booked` item succeeds (so no NotFound-admin error is
possible) and the inserted check-in transaction carries the given
`admin_id` unchecked; by contrast checkOutEquipment and bookEquipment
reject a missing admin before acting. -/
theorem c10_checkIn_skips_admin_validation (db : DB) (now : Nat)
    (input : CheckInEquipmentInput) :
    (∀ e, selectEquipmentById db input.equipment_id = some e →
      (e.status = .checked_out ∨ e.status = .booked) →
      ∃ t db2, checkInEquipment db now input = .ok (t, db2) ∧
        t.admin_id = input.admin_id ∧ t ∈ db2.transactions) ∧
    (∀ coInput : CheckOutEquipmentInput, selectAdminById db coInput.admin_id = none →
      checkOutEquipment db now coInput =
        .error ("Admin with id " ++ toString coInput.admin_id ++ " not found")) ∧
    (∀ bInput : BookEquipmentInput, selectAdminById db bInput.admin_id = none →
      bookEquipment db now bInput =
        .error ("Admin with id " ++ toString bInput.admin_id ++ " not found")) := by
  refine ⟨?_, ?_, ?_⟩
  · intro e hEq hsb
    have hcond : ¬(e.status ≠ .checked_out ∧ e.status ≠ .booked) := by
      rcases hsb with h | h <;> simp [h]
    unfold checkInEquipment
    rw [hEq]
    dsimp only
    rw [if_neg hcond]
    exact ⟨_, _, rfl, rfl, List.mem_append_right _ (List.mem_singleton.mpr rfl)⟩
  · intro coInput hA
    unfold checkOutEquipment
    rw [hA]
  · intro bInput hA
    unfold bookEquipment
    rw [hA]

/-- Witness for C10: a store without any admin row still accepts the
check-in, recording the unknown admin id 42. -/
theorem c10_checkIn_skips_admin_validation_witness :
    ∃ t db2, checkInEquipment noAdminDB 3 strangerCheckInInput = .ok (t, db2) ∧
      t.admin_id = 42 := by
  obtain ⟨t, db2, h1, h2, _⟩ :=
    (c10_checkIn_skips_admin_validation noAdminDB 3 strangerCheckInInput).1
      demoCheckedOutEquipment rfl (Or.inl rfl)
  exact ⟨t, db2, h1, h2⟩

end Warehouse
